import Mathlib

/-!
# FLASH robot driver: constants of `src/flash.h` and the protocol engine around them

The header `flash.h` fixes the numeric tables of the wire protocol (command
numbers, SIP status codes, argument tags) and the defaults of the link.  The
first part of this file embeds those tables verbatim.  The packet codec, the
command bookkeeping and the keep-alive logic are declared in the header but
implemented in files that are not among the sources (`packet.h`, `flash.cc`);
they are modelled from the specification and every such definition says so.
-/

namespace Flash

/-! ## Constants of `flash.h` -/

/-- Cycle time in microseconds (`#define FLASH_CYCLETIME_USEC 200000`). -/
def FLASH_CYCLETIME_USEC : Nat := 200000

/-- Microseconds per millisecond, used to read the cycle time in ms. -/
def USEC_PER_MSEC : Nat := 1000

/-! ### Command numbers (`flash.h`, lines 63-104) -/

def PULSE : Nat := 0
def OPEN : Nat := 1
def CLOSE : Nat := 2
def ENABLE : Nat := 4
def SETA : Nat := 5
def SETV : Nat := 6
def SETO : Nat := 7
def VEL : Nat := 11
def RVEL : Nat := 21
def SETRA : Nat := 23
def SONAR : Nat := 28
def STOP : Nat := 29
def VEL2 : Nat := 32
def GRIPPER : Nat := 33
def GRIPPERVAL : Nat := 36
def TTY2 : Nat := 42
def GETAUX : Nat := 43
def BUMP_STALL : Nat := 44
def JOYDRIVE : Nat := 47
def GYRO : Nat := 58
def ROTKP : Nat := 82
def ROTKV : Nat := 83
def ROTKI : Nat := 84
def TRANSKP : Nat := 85
def TRANSKV : Nat := 86
def TRANSKI : Nat := 87
def TTY3 : Nat := 66
def GETAUX2 : Nat := 67
def ARM_INFO : Nat := 70
def ARM_STATUS : Nat := 71
def ARM_INIT : Nat := 72
def ARM_CHECK : Nat := 73
def ARM_POWER : Nat := 74
def ARM_HOME : Nat := 75
def ARM_PARK : Nat := 76
def ARM_POS : Nat := 77
def ARM_SPEED : Nat := 78
def ARM_STOP : Nat := 79
def ARM_AUTOPARK : Nat := 80
def ARM_GRIPPARK : Nat := 81
def SOUND : Nat := 90
def PLAYLIST : Nat := 91

/-- The command-number table in the order of the header: one entry per
`#define` between `PULSE` and `PLAYLIST`, name first, code second. -/
def commandTable : List (String × Nat) :=
  [ ("PULSE", PULSE), ("OPEN", OPEN), ("CLOSE", CLOSE), ("ENABLE", ENABLE),
    ("SETA", SETA), ("SETV", SETV), ("SETO", SETO), ("VEL", VEL),
    ("RVEL", RVEL), ("SETRA", SETRA), ("SONAR", SONAR), ("STOP", STOP),
    ("VEL2", VEL2), ("GRIPPER", GRIPPER), ("GRIPPERVAL", GRIPPERVAL),
    ("TTY2", TTY2), ("GETAUX", GETAUX), ("BUMP_STALL", BUMP_STALL),
    ("JOYDRIVE", JOYDRIVE), ("GYRO", GYRO),
    ("ROTKP", ROTKP), ("ROTKV", ROTKV), ("ROTKI", ROTKI),
    ("TRANSKP", TRANSKP), ("TRANSKV", TRANSKV), ("TRANSKI", TRANSKI),
    ("TTY3", TTY3), ("GETAUX2", GETAUX2),
    ("ARM_INFO", ARM_INFO), ("ARM_STATUS", ARM_STATUS), ("ARM_INIT", ARM_INIT),
    ("ARM_CHECK", ARM_CHECK), ("ARM_POWER", ARM_POWER), ("ARM_HOME", ARM_HOME),
    ("ARM_PARK", ARM_PARK), ("ARM_POS", ARM_POS), ("ARM_SPEED", ARM_SPEED),
    ("ARM_STOP", ARM_STOP), ("ARM_AUTOPARK", ARM_AUTOPARK),
    ("ARM_GRIPPARK", ARM_GRIPPARK),
    ("SOUND", SOUND), ("PLAYLIST", PLAYLIST) ]

/-- The codes of the command table, in header order. -/
def commandCodes : List Nat := commandTable.map Prod.snd

/-- The twelve articulated-arm commands `ARM_INFO` .. `ARM_GRIPPARK`. -/
def armCommandCodes : List Nat :=
  [ ARM_INFO, ARM_STATUS, ARM_INIT, ARM_CHECK, ARM_POWER, ARM_HOME, ARM_PARK,
    ARM_POS, ARM_SPEED, ARM_STOP, ARM_AUTOPARK, ARM_GRIPPARK ]

/-- The six PID gain commands `ROTKP` .. `TRANSKI`. -/
def pidCommandCodes : List Nat :=
  [ ROTKP, ROTKV, ROTKI, TRANSKP, TRANSKV, TRANSKI ]

/-! ### Server Information Packet types (`flash.h`, lines 106-115) -/

def STATUSSTOPPED : Nat := 0x32
def STATUSMOVING : Nat := 0x33
def ENCODER : Nat := 0x90
def SERAUX : Nat := 0xB0
def SERAUX2 : Nat := 0xB8
def GYROPAC : Nat := 0x98
def ARMPAC : Nat := 160
def ARMINFOPAC : Nat := 161

/-- The report kinds that have a `#define` in the SIP table. -/
inductive SipKind
  | stopped
  | moving
  | encoder
  | seraux
  | seraux2
  | gyro
  | arm
  | armInfo
  deriving DecidableEq, Repr

/-- Status byte of a report kind, as defined in the header. -/
def SipKind.code : SipKind → Nat
  | .stopped => STATUSSTOPPED
  | .moving => STATUSMOVING
  | .encoder => ENCODER
  | .seraux => SERAUX
  | .seraux2 => SERAUX2
  | .gyro => GYROPAC
  | .arm => ARMPAC
  | .armInfo => ARMINFOPAC

/-- All report kinds of the table, in header order. -/
def sipKinds : List SipKind :=
  [ .stopped, .moving, .encoder, .seraux, .seraux2, .gyro, .arm, .armInfo ]

/-- The status bytes of the SIP table, in header order. -/
def sipCodes : List Nat := sipKinds.map SipKind.code

/-! ### Argument types (`flash.h`, lines 117-120) -/

/-- Positive int (LSB, MSB). -/
def ARGINT : Nat := 0x3B
/-- Negative int (LSB, MSB). -/
def ARGNINT : Nat := 0x1B
/-- String (the first byte is the length). -/
def ARGSTR : Nat := 0x2B

/-! ### Connection defaults and the transport selector (`flash.h`, lines 140-143, 254-258) -/

def DEFAULT_FLASH_PORT : String := "/dev/ttyS0"
def DEFAULT_FLASH_TCP_REMOTE_HOST : String := "localhost"
def DEFAULT_FLASH_TCP_REMOTE_PORT : Nat := 8101

/-- The connection fields of class `FLASH`. -/
structure Connection where
  /-- name of serial port device -/
  psos_serial_port : String
  /-- use TCP port instead of serial port -/
  psos_use_tcp : Bool
  /-- hostname to use if using TCP -/
  psos_tcp_host : String
  /-- remote port to use if using TCP -/
  psos_tcp_port : Int
  deriving DecidableEq, Repr

/-- The two transports a session can use. -/
inductive Transport
  | serial
  | tcp
  deriving DecidableEq, Repr

/-- The transport selected by `psos_use_tcp` ("use TCP port instead of serial
port"). -/
def Connection.transport (c : Connection) : Transport :=
  if c.psos_use_tcp then Transport.tcp else Transport.serial

/-! ## Packet codec (spec section 4.1 and the wire format of section 6)

The class `FLASHPacket` of `packet.h` is included by `flash.h` but is not among
the sources; only the three argument tags above are.  The codec is therefore
modelled from the specification.  A wire value is a natural number; what the
specification leaves open (sync bytes, checksum formula) is a parameter. -/

/-- Modelled from the spec: the framing parameters of the packet codec of
`packet.h`, which is missing from the sources.  The spec fixes neither the sync
bytes nor the checksum formula ("an implementer must source the definitive
protocol reference rather than guess the checksum formula"), so both are
parameters: `sync` is the header that opens every packet and `checksum` maps
the payload (code and arguments) to the checksum bytes that close it. -/
structure Framing where
  sync : List Nat
  checksum : List Nat → List Nat

/-- Modelled from the spec: a typed argument of a packet (`packet.h` is
missing).  "Argument encoding is tagged: positive integer (two bytes,
little-endian), negative integer (two bytes, little-endian, sign flag), or
length-prefixed byte string."  An integer is carried by its magnitude. -/
inductive Arg
  | int (magnitude : Nat)
  | nint (magnitude : Nat)
  | str (bytes : List Nat)
  deriving DecidableEq, Repr

/-- Modelled from the spec: a decoded packet of the missing `packet.h`, its
command-or-status code and its typed arguments. -/
structure Packet where
  code : Nat
  args : List Arg
  deriving DecidableEq, Repr

/-- Modelled from the spec: the two failures of `Decode` (`packet.h` is
missing). -/
inductive DecodeError
  | ChecksumError
  | FramingError
  deriving DecidableEq, Repr

/-- Modelled from the spec: the argument decoder of the missing codec.  "The
decoder dispatches on the tag byte and advances the cursor by the tag-specific
width"; an unknown tag or an argument cut short is a framing error. -/
def decodeArgs (bytes : List Nat) : Except DecodeError (List Arg) :=
  match bytes with
  | [] => .ok []
  | tag :: rest =>
    if tag = ARGINT then
      match rest with
      | lo :: hi :: more =>
        match decodeArgs more with
        | .ok args => .ok (Arg.int (lo + 256 * hi) :: args)
        | .error e => .error e
      | _ => .error .FramingError
    else if tag = ARGNINT then
      match rest with
      | lo :: hi :: more =>
        match decodeArgs more with
        | .ok args => .ok (Arg.nint (lo + 256 * hi) :: args)
        | .error e => .error e
      | _ => .error .FramingError
    else if tag = ARGSTR then
      match rest with
      | n :: more =>
        if n ≤ more.length then
          match decodeArgs (more.drop n) with
          | .ok args => .ok (Arg.str (more.take n) :: args)
          | .error e => .error e
        else .error .FramingError
      | [] => .error .FramingError
    else .error .FramingError
termination_by bytes.length
decreasing_by
  all_goals simp_wf
  all_goals omega

/-- Modelled from the spec: the sync check of the missing decoder.  It returns
what follows the sync bytes, or nothing when the input does not open with
them. -/
def stripSync : List Nat → List Nat → Option (List Nat)
  | [], bytes => some bytes
  | _ :: _, [] => none
  | s :: ss, b :: bytes => if s = b then stripSync ss bytes else none

/-- Modelled from the spec: `Decode(byte sequence)` of the missing `packet.h`.
It "validates sync bytes, declared length against actual bytes read, and
checksum; a checksum mismatch or truncated read yields
`ChecksumError`/`FramingError`, never a partially-populated result". -/
def Decode (F : Framing) (bytes : List Nat) : Except DecodeError Packet :=
  match stripSync F.sync bytes with
  | none => .error .FramingError
  | some [] => .error .FramingError
  | some (len :: rest) =>
    if rest.length < len then .error .FramingError
    else if rest.drop len ≠ F.checksum (rest.take len) then .error .ChecksumError
    else
      match rest.take len with
      | [] => .error .FramingError
      | code :: argBytes =>
        match decodeArgs argBytes with
        | .ok args => .ok ⟨code, args⟩
        | .error e => .error e

/-- Modelled from the spec: the malformed inputs named for the missing decoder.
A byte sequence is malformed when its sync bytes are corrupted (it does not
open with them), when it is truncated (fewer bytes follow the length field than
the declared payload and its checksum need), or when its checksum does not
validate. -/
def Malformed (F : Framing) (bytes : List Nat) : Prop :=
  (∀ rest, bytes ≠ F.sync ++ rest) ∨
  (∃ len rest, bytes = F.sync ++ len :: rest ∧
      rest.length < len + (F.checksum (rest.take len)).length) ∨
  (∃ len payload ck, bytes = F.sync ++ len :: (payload ++ ck) ∧
      payload.length = len ∧ ck ≠ F.checksum payload)

/-- A concrete framing on which the codec is run in the examples below: header
bytes 0xFA 0xFB and a two-byte additive checksum. -/
def sampleFraming : Framing where
  sync := [0xFA, 0xFB]
  checksum := fun payload => [payload.sum % 256, payload.length % 256]

/-! ## Command arbiter (spec section 4.4)

`flash.h` declares the bookkeeping fields (`sent_gripper_cmd`,
`last_gripper_cmd`, `last_actarray_*`, `sent_sound_cmd`, `last_sound_cmd`) and
the handlers that use them; the handlers themselves live in `flash.cc`, which is
not among the sources.  The arbiter is modelled from the specification. -/

/-- Modelled from the spec: the logical subdevices that submit commands (the
adapters of spec section 2); the handlers of `flash.cc` are missing. -/
inductive Subdevice
  | position
  | sonar
  | gripper
  | sound
  | actarray
  | limb
  | blobfinder
  deriving DecidableEq, Repr

/-- Modelled from the spec: a protocol-level command payload handed to the
arbiter (its producers in `flash.cc` are missing). -/
abbrev Payload := List Nat

/-- Modelled from the spec: "PendingCommand (one per logical subdevice):
payload, dirty flag, last-sent-copy".  `lastSent` is empty until a first
command has been sent, which is what the header's pair `sent_gripper_cmd` /
`last_gripper_cmd` records; the code using the pair (`flash.cc`) is missing. -/
structure PendingCommand where
  payload : Payload
  dirty : Bool
  lastSent : Option Payload
  deriving DecidableEq, Repr

/-- Modelled from the spec: the arbiter's table, "one pending-command slot per
logical subdevice" (`flash.cc` is missing). -/
abbrev Arbiter := Subdevice → PendingCommand

/-- Modelled from the spec: the fixed order in which `DrainOne` looks for a
dirty subdevice ("round-robin or priority order ... is an implementation
choice, but must be deterministic"); `flash.cc` is missing. -/
def drainOrder : List Subdevice :=
  [ .position, .sonar, .gripper, .sound, .actarray, .limb, .blobfinder ]

/-- Modelled from the spec: what one `DrainOne` hands to the link, the
subdevice served and the payload of its packet (`flash.cc` is missing). -/
structure Outgoing where
  subdevice : Subdevice
  payload : Payload
  deriving DecidableEq, Repr

/-- Modelled from the spec: `Submit(subdeviceId, payload)` of the missing
`flash.cc`.  It "marks a PendingCommand dirty", except that "`Submit` with a
payload identical to the current last-sent-copy does not set dirty". -/
def Submit (a : Arbiter) (sd : Subdevice) (p : Payload) : Arbiter :=
  if (a sd).lastSent = some p then a
  else Function.update a sd { a sd with payload := p, dirty := true }

/-- Modelled from the spec: `DrainOne()` of the missing `flash.cc`.  It
"returns at most one encoded packet for a dirty subdevice ... and marks it
clean, recording the sent payload as last-sent-copy". -/
def DrainOne (a : Arbiter) : Option Outgoing × Arbiter :=
  match drainOrder.find? (fun sd => (a sd).dirty) with
  | none => (none, a)
  | some sd =>
    (some ⟨sd, (a sd).payload⟩,
     Function.update a sd { payload := (a sd).payload, dirty := false,
                            lastSent := some (a sd).payload })

/-- Modelled from the spec: the packets transmitted by up to `n` successive
calls of `DrainOne` (step 3 of the control cycle, "bounded by a per-cycle
cap"); `flash.cc` is missing. -/
def drain : Nat → Arbiter → List Outgoing
  | 0, _ => []
  | n + 1, a =>
    match DrainOne a with
    | (none, _) => []
    | (some out, a') => out :: drain n a'

/-- An arbiter in which nothing was ever submitted or sent. -/
def idleArbiter : Arbiter := fun _ => { payload := [], dirty := false, lastSent := none }

/-! ## Keep-alive pulse (spec section 4.5, step 4)

`flash.h` declares `pulse`, `lastPulseTime` ("Last time of sending a pulse or
command to the robot") and `SendPulse`; the main loop that uses them is in
`flash.cc`, which is not among the sources.  The step is modelled from the
specification, with time as an integer clock reading. -/

/-- Modelled from the spec: the timing state of the link session, the
configured pulse interval and the time of the last transmission (fields `pulse`
and `lastPulseTime` of the header; the loop using them is missing). -/
structure PulseState where
  pulse : Int
  lastPulseTime : Int
  deriving DecidableEq, Repr

/-- Modelled from the spec: the transmit part of one control cycle of the
missing `flash.cc`, at clock reading `now`, with the command codes `cmds`
drained in this cycle.  Commands are sent and the time of the last transmission
is updated; "if no command was sent this cycle, send a keep-alive pulse packet
if the time since the last transmission exceeds a configured pulse interval".
The result is the command codes sent and the new state; a pulse packet is the
command `PULSE`. -/
def cycleTransmit (s : PulseState) (now : Int) (cmds : List Nat) : List Nat × PulseState :=
  if cmds ≠ [] then (cmds, { s with lastPulseTime := now })
  else if now - s.lastPulseTime > s.pulse then ([PULSE], { s with lastPulseTime := now })
  else ([], s)

/-- Modelled from the spec: a run of control cycles in which no command is
submitted, given by the clock readings of its cycles; the result lists the
readings at which a pulse packet was sent (`flash.cc` is missing). -/
def pulseTimes (s : PulseState) : List Int → List Int
  | [] => []
  | t :: ts =>
    if (cycleTransmit s t []).1 = [PULSE] then t :: pulseTimes (cycleTransmit s t []).2 ts
    else pulseTimes (cycleTransmit s t []).2 ts

end Flash

namespace Flash

/-! ## Auxiliary lemmas -/

theorem stripSync_append (s r : List Nat) : stripSync s (s ++ r) = some r := by
  induction s with
  | nil => cases r <;> rfl
  | cons a s ih => simp [stripSync, ih]

theorem stripSync_some {s bytes r : List Nat} (h : stripSync s bytes = some r) :
    bytes = s ++ r := by
  induction s generalizing bytes with
  | nil => simp [stripSync] at h; simp [h]
  | cons a s ih =>
    cases bytes with
    | nil => simp [stripSync] at h
    | cons b bytes =>
      simp only [stripSync] at h
      split at h
      · next hab => subst hab; simp [ih h]
      · simp at h

theorem submit_of_ne {a : Arbiter} {sd : Subdevice} {p : Payload}
    (h : (a sd).lastSent ≠ some p) :
    Submit a sd p = Function.update a sd { a sd with payload := p, dirty := true } := by
  simp [Submit, h]

theorem submit_idem (a : Arbiter) (sd : Subdevice) (p : Payload) :
    Submit (Submit a sd p) sd p = Submit a sd p := by
  by_cases h : (a sd).lastSent = some p
  · simp [Submit, h]
  · rw [submit_of_ne h]
    have h2 : ((Function.update a sd { a sd with payload := p, dirty := true }) sd).lastSent
        ≠ some p := by simpa using h
    rw [submit_of_ne h2]
    simp

theorem drainOne_clean (a : Arbiter) (h : ∀ d, (a d).dirty = false) :
    DrainOne a = (none, a) := by
  have : drainOrder.find? (fun sd => (a sd).dirty) = none := by
    rw [List.find?_eq_none]; intro x _; simp [h x]
  simp [DrainOne, this]

theorem drain_clean (a : Arbiter) (h : ∀ d, (a d).dirty = false) (n : Nat) :
    drain n a = [] := by
  cases n with
  | zero => rfl
  | succ n =>
    have : drainOrder.find? (fun sd => (a sd).dirty) = none := by
      rw [List.find?_eq_none]; intro x _; simp [h x]
    simp [drain, DrainOne, this]

theorem drainOne_single (a : Arbiter) (sd : Subdevice)
    (hd : (a sd).dirty = true) (h : ∀ d, d ≠ sd → (a d).dirty = false) :
    drainOrder.find? (fun d => (a d).dirty) = some sd := by
  cases sd <;> simp [drainOrder, List.find?, hd, h]

theorem drain_skips_clean (sd : Subdevice) (n : Nat) (a : Arbiter)
    (h : (a sd).dirty = false) : ∀ o ∈ drain n a, o.subdevice ≠ sd := by
  induction n generalizing a with
  | zero => intro o ho; simp [drain] at ho
  | succ n ih =>
    intro o ho
    cases hf : drainOrder.find? (fun d => (a d).dirty) with
    | none => simp [drain, DrainOne, hf] at ho
    | some served =>
      have hserved : (a served).dirty = true := by
        simpa using List.find?_some hf
      have hne : sd ≠ served := by
        intro heq; rw [← heq, h] at hserved; cases hserved
      simp only [drain, DrainOne, hf, List.mem_cons] at ho
      rcases ho with rfl | ho
      · exact fun heq => hne heq.symm
      · exact ih _ (by rw [Function.update_noteq hne]; exact h) o ho

theorem drain_filter_clean (sd : Subdevice) (n : Nat) (a : Arbiter)
    (h : (a sd).dirty = false) :
    (drain n a).filter (fun o => decide (o.subdevice = sd)) = [] := by
  rw [List.filter_eq_nil_iff]
  intro o ho
  simpa using drain_skips_clean sd n a h o ho

theorem drain_serves_once (sd : Subdevice) (n : Nat) (a : Arbiter) :
    ((drain n a).filter (fun o => decide (o.subdevice = sd))).length ≤ 1 := by
  induction n generalizing a with
  | zero => simp [drain]
  | succ n ih =>
    cases hf : drainOrder.find? (fun d => (a d).dirty) with
    | none => simp [drain, DrainOne, hf]
    | some served =>
      simp only [drain, DrainOne, hf]
      by_cases hs : served = sd
      · subst hs
        rw [List.filter_cons_of_pos (by simp), drain_filter_clean served n _ (by simp)]
        simp
      · rw [List.filter_cons_of_neg (by simpa using hs)]
        exact ih _

theorem cycleTransmit_pulse (s : PulseState) (now : Int) (cmds : List Nat) :
    (cycleTransmit s now cmds).2.pulse = s.pulse := by
  unfold cycleTransmit; split_ifs <;> rfl

theorem cycleTransmit_not_due (s : PulseState) (now : Int)
    (h : ¬ (now - s.lastPulseTime > s.pulse)) : cycleTransmit s now [] = ([], s) := by
  simp [cycleTransmit, h]

theorem pulseTimes_chain (s : PulseState) (ts : List Int) :
    List.Chain (fun a b => b - a > s.pulse) s.lastPulseTime (pulseTimes s ts) := by
  induction ts generalizing s with
  | nil => exact List.Chain.nil
  | cons t ts ih =>
    by_cases h : t - s.lastPulseTime > s.pulse
    · have hc : cycleTransmit s t [] = ([PULSE], { s with lastPulseTime := t }) := by
        simp [cycleTransmit, h]
      simp only [pulseTimes, hc, if_true]
      exact List.Chain.cons h (ih { s with lastPulseTime := t })
    · have hc : cycleTransmit s t [] = ([], s) := by
        simp [cycleTransmit, h]
      simp only [pulseTimes, hc]
      simpa using ih s

/-! ## The claims -/

/-- Claim C2: for every malformed byte sequence (corrupted sync bytes,
truncated relative to its declared length, or a checksum that does not
validate) `Decode` returns `FramingError` or `ChecksumError`, and it returns no
packet. -/
theorem C2_malformed_is_rejected (F : Framing) (bytes : List Nat) (h : Malformed F bytes) :
    (Decode F bytes = .error .FramingError ∨ Decode F bytes = .error .ChecksumError) ∧
    ∀ p : Packet, Decode F bytes ≠ .ok p := by
  have key : Decode F bytes = .error .FramingError ∨ Decode F bytes = .error .ChecksumError := by
    rcases h with h | ⟨len, rest, rfl, hlt⟩ | ⟨len, payload, ck, rfl, hlen, hck⟩
    · left
      cases hs : stripSync F.sync bytes with
      | none => simp [Decode, hs]
      | some r => exact absurd (stripSync_some hs) (h r)
    · by_cases htr : rest.length < len
      · left
        simp [Decode, stripSync_append, htr]
      · right
        have hne : rest.drop len ≠ F.checksum (rest.take len) := by
          intro heq
          have := congrArg List.length heq
          simp only [List.length_drop] at this
          omega
        simp [Decode, stripSync_append, htr, hne]
    · right
      subst hlen
      simp [Decode, stripSync_append, hck]
  refine ⟨key, ?_⟩
  intro p hp
  rcases key with k | k <;> rw [k] at hp <;> cases hp

/-- Claim C2 on a truncated packet: the length field declares four payload
bytes and only two follow. -/
theorem C2_truncated_packet_rejected :
    Malformed sampleFraming [0xFA, 0xFB, 4, VEL, ARGINT] ∧
    ((Decode sampleFraming [0xFA, 0xFB, 4, VEL, ARGINT] = .error .FramingError ∨
      Decode sampleFraming [0xFA, 0xFB, 4, VEL, ARGINT] = .error .ChecksumError) ∧
    ∀ p : Packet, Decode sampleFraming [0xFA, 0xFB, 4, VEL, ARGINT] ≠ .ok p) :=
  have hm : Malformed sampleFraming [0xFA, 0xFB, 4, VEL, ARGINT] :=
    Or.inr (Or.inl ⟨4, [VEL, ARGINT], rfl, by decide⟩)
  ⟨hm, C2_malformed_is_rejected sampleFraming _ hm⟩

/-- Claim C3: for every subdevice and payload, a second `Submit` of the same
payload with no `DrainOne` in between changes nothing, so the drains that
follow transmit what they would after one `Submit`, and never more than one
packet of that subdevice; a `Submit` whose payload equals the last-sent copy
leaves the arbiter, and so the dirty flag, as it was; and when the payload is
new and no other subdevice is dirty, the two submits lead to exactly one
transmitted packet: the first `DrainOne` returns it, the next returns none, and
any number of drains transmits that one packet only. -/
theorem C3_duplicate_submit_sends_once (a : Arbiter) (sd : Subdevice) (p : Payload) :
    Submit (Submit a sd p) sd p = Submit a sd p ∧
    (∀ n, drain n (Submit (Submit a sd p) sd p) = drain n (Submit a sd p)) ∧
    (∀ n, ((drain n (Submit (Submit a sd p) sd p)).filter
        (fun o => decide (o.subdevice = sd))).length ≤ 1) ∧
    ((a sd).lastSent = some p →
      Submit a sd p = a ∧ (Submit a sd p sd).dirty = (a sd).dirty) ∧
    ((a sd).lastSent ≠ some p → (∀ d, d ≠ sd → (a d).dirty = false) →
      (DrainOne (Submit (Submit a sd p) sd p)).1 = some ⟨sd, p⟩ ∧
      (DrainOne (DrainOne (Submit (Submit a sd p) sd p)).2).1 = none ∧
      ∀ n, drain (n + 1) (Submit (Submit a sd p) sd p) = [⟨sd, p⟩]) := by
  refine ⟨submit_idem a sd p, fun n => by rw [submit_idem],
    fun n => drain_serves_once sd n _, ?_, ?_⟩
  · intro h
    have : Submit a sd p = a := by simp [Submit, h]
    exact ⟨this, by rw [this]⟩
  · intro hne hidle
    rw [submit_idem, submit_of_ne hne]
    have hfind : drainOrder.find? (fun d =>
        ((Function.update a sd { a sd with payload := p, dirty := true }) d).dirty) = some sd := by
      apply drainOne_single
      · simp
      · intro d hd
        simp [Function.update_noteq hd, hidle d hd]
    have hclean : ∀ d, ((DrainOne
        (Function.update a sd { a sd with payload := p, dirty := true })).2 d).dirty = false := by
      intro d
      simp only [DrainOne, hfind]
      by_cases hd : d = sd
      · subst hd; simp
      · simp [Function.update_noteq hd, hidle d hd]
    have hfirst : (DrainOne
        (Function.update a sd { a sd with payload := p, dirty := true })).1 = some ⟨sd, p⟩ := by
      simp [DrainOne, hfind]
    refine ⟨hfirst, ?_, ?_⟩
    · rw [drainOne_clean _ hclean]
    · intro n
      have hrest := drain_clean _ hclean n
      simp only [drain]
      revert hrest hfirst
      generalize DrainOne (Function.update a sd { a sd with payload := p, dirty := true }) = r
      rcases r with ⟨o, a'⟩
      intro hfirst hrest
      simp only at hfirst hrest
      subst hfirst
      simp [hrest]

/-- Claim C3 on the gripper: a gripper command submitted twice to an idle
arbiter is transmitted once, and submitting it again after it was sent does not
mark the gripper dirty. -/
theorem C3_gripper_submitted_twice :
    ((DrainOne (Submit (Submit idleArbiter .gripper [GRIPPER, 1]) .gripper [GRIPPER, 1])).1
        = some ⟨.gripper, [GRIPPER, 1]⟩ ∧
      (DrainOne (DrainOne
        (Submit (Submit idleArbiter .gripper [GRIPPER, 1]) .gripper [GRIPPER, 1])).2).1 = none ∧
      ∀ n, drain (n + 1) (Submit (Submit idleArbiter .gripper [GRIPPER, 1]) .gripper [GRIPPER, 1])
        = [⟨.gripper, [GRIPPER, 1]⟩]) ∧
    (Submit (DrainOne (Submit idleArbiter .gripper [GRIPPER, 1])).2 .gripper [GRIPPER, 1]
        = (DrainOne (Submit idleArbiter .gripper [GRIPPER, 1])).2 ∧
      (Submit (DrainOne (Submit idleArbiter .gripper [GRIPPER, 1])).2 .gripper [GRIPPER, 1]
        .gripper).dirty
        = ((DrainOne (Submit idleArbiter .gripper [GRIPPER, 1])).2 .gripper).dirty) :=
  ⟨(C3_duplicate_submit_sends_once idleArbiter .gripper [GRIPPER, 1]).2.2.2.2
      (by simp [idleArbiter]) (by intro d _; rfl),
   (C3_duplicate_submit_sends_once (DrainOne (Submit idleArbiter .gripper [GRIPPER, 1])).2
      .gripper [GRIPPER, 1]).2.2.2.1 (by decide)⟩

/-- Claim C5: in a cycle without commands a keep-alive pulse is sent exactly
when more than the pulse interval has passed since the last transmission, and
then it is one pulse packet; a pulse or a command sets the last-pulse time to
the time of the cycle, so a later idle cycle within one interval of it sends
nothing; and along every run of idle cycles each pulse comes more than one
interval after the transmission before it, so there is never more than one
pulse per interval. -/
theorem C5_keepalive_pulse (s : PulseState) :
    (∀ now, now - s.lastPulseTime > s.pulse →
      cycleTransmit s now [] = ([PULSE], { s with lastPulseTime := now })) ∧
    (∀ now, ¬ (now - s.lastPulseTime > s.pulse) → cycleTransmit s now [] = ([], s)) ∧
    (∀ now cmds, cmds ≠ [] →
      cycleTransmit s now cmds = (cmds, { s with lastPulseTime := now })) ∧
    (∀ now cmds later, (cycleTransmit s now cmds).1 ≠ [] → later - now ≤ s.pulse →
      (cycleTransmit (cycleTransmit s now cmds).2 later []).1 = []) ∧
    (∀ ts, List.Chain (fun a b => b - a > s.pulse) s.lastPulseTime (pulseTimes s ts)) := by
  refine ⟨?_, ?_, ?_, ?_, pulseTimes_chain s⟩
  · intro now h; simp [cycleTransmit, h]
  · intro now h; simp [cycleTransmit, h]
  · intro now cmds h; simp [cycleTransmit, h]
  · intro now cmds later hsent hle
    have hlast : (cycleTransmit s now cmds).2.lastPulseTime = now := by
      unfold cycleTransmit at hsent ⊢
      split_ifs at hsent ⊢ <;> simp_all
    have hp := cycleTransmit_pulse s now cmds
    have : ¬ (later - (cycleTransmit s now cmds).2.lastPulseTime
        > (cycleTransmit s now cmds).2.pulse) := by
      rw [hlast, hp]; omega
    rw [cycleTransmit_not_due _ _ this]

/-- Claim C5 on a run: with a pulse interval of 1000 ms and the last
transmission at 0, an idle cycle at 1200 sends one pulse and the idle cycle at
1400 after it sends nothing; a `VEL` command at 1200 also silences the cycle at
1400. -/
theorem C5_pulse_after_idle_interval :
    cycleTransmit ⟨1000, 0⟩ 1200 [] = ([PULSE], ⟨1000, 1200⟩) ∧
    (cycleTransmit (cycleTransmit ⟨1000, 0⟩ 1200 []).2 1400 []).1 = [] ∧
    (cycleTransmit (cycleTransmit ⟨1000, 0⟩ 1200 [VEL]).2 1400 []).1 = [] :=
  ⟨(C5_keepalive_pulse ⟨1000, 0⟩).1 1200 (by decide),
   (C5_keepalive_pulse ⟨1000, 0⟩).2.2.2.1 1200 [] 1400 (by decide) (by decide),
   (C5_keepalive_pulse ⟨1000, 0⟩).2.2.2.1 1200 [VEL] 1400 (by decide) (by decide)⟩

/-- Claim C6: the argument-type tags are positive integer = 0x3B, negative
integer = 0x1B and string = 0x2B; they are pairwise distinct, so for every tag
byte at most one of the three argument kinds matches. -/
theorem C6_argument_tags :
    ARGINT = 0x3B ∧ ARGNINT = 0x1B ∧ ARGSTR = 0x2B ∧
    ARGINT ≠ ARGNINT ∧ ARGINT ≠ ARGSTR ∧ ARGNINT ≠ ARGSTR ∧
    (∀ b : Nat, ¬ (b = ARGINT ∧ b = ARGNINT) ∧ ¬ (b = ARGINT ∧ b = ARGSTR) ∧
      ¬ (b = ARGNINT ∧ b = ARGSTR)) := by
  refine ⟨rfl, rfl, rfl, by decide, by decide, by decide, ?_⟩
  intro b
  simp only [ARGINT, ARGNINT, ARGSTR]
  omega

/-- Claim C7: the SIP table defines a status code for each of the eight report
kinds; the codes are the values of the header, each lies in 0..255, two
different kinds never share a code, and among the 256 byte values exactly eight
are recognised, so every other byte is an unrecognised code. -/
theorem C7_sip_codes :
    sipKinds.length = 8 ∧ (∀ k : SipKind, k ∈ sipKinds) ∧
    sipCodes = [0x32, 0x33, 0x90, 0xB0, 0xB8, 0x98, 160, 161] ∧
    (∀ k : SipKind, k.code < 256) ∧
    (∀ a b : SipKind, a.code = b.code → a = b) ∧
    sipCodes.Nodup ∧
    ((List.range 256).filter (fun b => decide (b ∈ sipCodes))).length = 8 := by
  refine ⟨rfl, ?_, rfl, ?_, ?_, by decide, by decide⟩
  · intro k; cases k <;> decide
  · intro k; cases k <;> decide
  · intro a b; cases a <;> cases b <;> decide

/-- Claim C8: the cycle-time constant is 200000 microseconds, which is exactly
200 milliseconds. -/
theorem C8_cycle_time :
    FLASH_CYCLETIME_USEC = 200000 ∧ FLASH_CYCLETIME_USEC = 200 * USEC_PER_MSEC ∧
    FLASH_CYCLETIME_USEC / USEC_PER_MSEC = 200 ∧ FLASH_CYCLETIME_USEC % USEC_PER_MSEC = 0 := by
  decide

/-- Claim C9: the default serial device is "/dev/ttyS0", the default TCP peer
is "localhost" port 8101, and the transport is chosen by the single boolean
`psos_use_tcp`: every connection state selects exactly one of serial and TCP. -/
theorem C9_transport_defaults :
    DEFAULT_FLASH_PORT = "/dev/ttyS0" ∧
    DEFAULT_FLASH_TCP_REMOTE_HOST = "localhost" ∧
    DEFAULT_FLASH_TCP_REMOTE_PORT = 8101 ∧
    (∀ c : Connection,
      (c.transport = Transport.serial ∨ c.transport = Transport.tcp) ∧
      ¬ (c.transport = Transport.serial ∧ c.transport = Transport.tcp) ∧
      (c.transport = Transport.tcp ↔ c.psos_use_tcp = true) ∧
      (c.transport = Transport.serial ↔ c.psos_use_tcp = false)) := by
  refine ⟨rfl, rfl, rfl, ?_⟩
  intro c
  cases h : c.psos_use_tcp <;> simp [Connection.transport, h]

/-- Claim C10 as stated fails on the count: the command table from `PULSE` to
`PLAYLIST` has 42 entries, not 40. -/
theorem C10_table_has_42_not_40_commands :
    commandTable.length = 42 ∧ commandTable.length ≠ 40 := by
  decide

/-- Claim C10, amended: the command table `PULSE` .. `PLAYLIST` has 42 entries;
its codes are pairwise distinct and each lies in 0..255, so two different
command names never share a code; the twelve arm commands are exactly the
consecutive codes 70..81, the six PID gain commands exactly 82..87, and the two
groups do not overlap. -/
theorem C10_command_table :
    commandTable.length = 42 ∧
    commandCodes.Nodup ∧
    (commandTable.map Prod.fst).Nodup ∧
    (∀ p ∈ commandTable, ∀ q ∈ commandTable, p.2 = q.2 → p.1 = q.1) ∧
    (∀ c ∈ commandCodes, c < 256) ∧
    armCommandCodes = List.range' 70 12 ∧
    pidCommandCodes = List.range' 82 6 ∧
    (∀ c ∈ armCommandCodes, c ∈ commandCodes) ∧
    (∀ c ∈ pidCommandCodes, c ∈ commandCodes) ∧
    (∀ c ∈ armCommandCodes, c ∉ pidCommandCodes) := by
  have hnd : commandCodes.Nodup := by decide
  refine ⟨rfl, hnd, by decide, ?_, by decide, by decide, by decide, by decide, by decide,
    by decide⟩
  intro p hp q hq h
  have := List.inj_on_of_nodup_map hnd hp hq h
  rw [this]

end Flash
